import Mathlib

/-!
Verification of the ninja-builder library (src/index.ts, src/util.ts):
a programmatic builder for Ninja build files.  The TypeScript source is
shallowly embedded below: every node's `writeTo` method is modelled by the
ordered list of string chunks it passes to the sink's `write` method, and
the sink (`Writable`) is modelled by an explicit state machine that records
the chunks it receives and answers each write from a predetermined script
of booleans.
-/

namespace NinjaBuilder

/-- The indent for nested bindings: source constant `INDENT = '  '`. -/
def INDENT : String := "  "

/-- The characters matched by the regex character class in `escape`
(`[ \:\$\n]`): space, colon, dollar, newline. -/
def special (c : Char) : Bool :=
  c = ' ' || c = ':' || c = '$' || c = '\n'

/-- `escape` from src/index.ts: `s.replace(regex, (match) => '$' + match)`
replaces every character of the class with a dollar sign followed by the
character itself; all other characters pass through. -/
def escape (s : String) : String :=
  String.mk ((s.data.map (fun c => if special c then ['$', c] else [c])).flatten)

/-- A file-list argument, TS `string | string[]`. -/
inductive FileArg where
  | str (s : String)
  | list (l : List String)
deriving DecidableEq

/-- The emptiness test `f == null || f.length === 0` at the top of
`fileList` (for a string, `length` is the character count). -/
def emptyFiles : Option FileArg → Bool
  | none => true
  | some (FileArg.str s) => s.length == 0
  | some (FileArg.list l) => l.length == 0

/-- `fileList` from src/index.ts.  An absent argument (TS `undefined`) is
`none`.  The source returns the empty string when the input is absent or
has length zero, wraps a single string into a one-element array, joins
with single spaces, and prefixes a space-separated separator token when
one was supplied and is non-empty (`separator != null && separator !==
''`). -/
def fileList (f : Option FileArg) (separator : Option String) : String :=
  if emptyFiles f then ""
  else
    let l : List String :=
      match f with
      | none => []
      | some (FileArg.str s) => [s]
      | some (FileArg.list l) => l
    let joined := String.intercalate " " l
    match separator with
    | some sep => if sep = "" then joined else " " ++ sep ++ " " ++ joined
    | none => joined

/-- The value sequence `fileList` joins: the `f = [f]` wrap of the
single-string branch (`typeof f === 'string'`), the sequence itself for an
array, and the empty sequence for an absent input. -/
def argValues : Option FileArg → List String
  | none => []
  | some (FileArg.str s) => [s]
  | some (FileArg.list l) => l

/-- `BuildFileOptions` from src/index.ts. -/
structure BuildFileOptions where
  requiredVersion : Option String := none
  builddir : Option String := none
  default : Option FileArg := none
deriving DecidableEq

/-- A rule option value: the values of the `RuleOptions` bag are strings or
booleans. -/
inductive RuleValue where
  | str (s : String)
  | bool (b : Bool)
deriving DecidableEq

/-- `EdgeOptions` from src/index.ts. -/
structure EdgeOptions where
  implicitOuts : Option (List String) := none
  implicitDeps : Option (List String) := none
  orderDeps : Option (List String) := none
  validations : Option (List String) := none
  dyndep : Option String := none
  pool : Option String := none
deriving DecidableEq

/-- The node hierarchy: `Raw`, `Binding`, `Rule` and `Edge` from
src/index.ts, as a closed set of variants.  A rule's options bag is
modelled as the ordered list of entries supplied to the call, which is the
order `Object.entries` iterates them in; likewise an edge's extra-bindings
record. -/
inductive NinjaNode where
  | raw (s : String)
  | binding (name value indent : String)
  | rule (name command : String) (options : Option (List (String × RuleValue)))
  | edge (outputs : FileArg) (rule : String) (inputs : Option FileArg)
      (options : Option EdgeOptions) (bindings : Option (List (String × String)))
deriving DecidableEq

/-- The single chunk `Binding.writeTo` writes. -/
def bindingChunk (indent name value : String) : String :=
  indent ++ name ++ " = " ++ value ++ "\n"

/-- The chunks one iteration of the `Rule.writeTo` options loop writes:
a string value always yields an indented binding line, a boolean value
yields an indented `<key> = 1` line only when true. -/
def ruleOptionChunks : String × RuleValue → List String
  | (opt, RuleValue.str v) => [bindingChunk INDENT opt v]
  | (opt, RuleValue.bool b) => if b then [bindingChunk INDENT opt "1"] else []

/-- The ordered sequence of strings `NinjaNode.writeTo` passes to the
sink's `write`, one list element per `w.write(...)` call in the source.
The `if d = ""` tests on an edge's `dyndep` and `pool` reflect the JS
truthiness tests `if (this.options?.dyndep)` and `if (this.options?.pool)`:
an empty string is falsy, so an empty value writes nothing. -/
def NinjaNode.chunks : NinjaNode → List String
  | NinjaNode.raw s => [s ++ "\n"]
  | NinjaNode.binding name value indent => [bindingChunk indent name value]
  | NinjaNode.rule name command options =>
      ["rule " ++ name ++ "\n", bindingChunk INDENT "command" command]
        ++ ((options.getD []).map ruleOptionChunks).flatten
  | NinjaNode.edge outputs ruleName inputs options bindings =>
      let outs := fileList (some outputs) none
        ++ fileList ((options.bind EdgeOptions.implicitOuts).map FileArg.list) (some "|")
      let ins := fileList inputs none
        ++ fileList ((options.bind EdgeOptions.implicitDeps).map FileArg.list) (some "|")
        ++ fileList ((options.bind EdgeOptions.orderDeps).map FileArg.list) (some "||")
        ++ fileList ((options.bind EdgeOptions.validations).map FileArg.list) (some "|@")
      ["build " ++ outs ++ ": " ++ ruleName ++ " " ++ ins ++ "\n"]
        ++ (match options.bind EdgeOptions.dyndep with
            | some d => if d = "" then [] else [bindingChunk INDENT "dyndep" d]
            | none => [])
        ++ (match options.bind EdgeOptions.pool with
            | some p => if p = "" then [] else [bindingChunk INDENT "pool" p]
            | none => [])
        ++ (bindings.getD []).map (fun kv => bindingChunk INDENT kv.1 kv.2)

/-- `NinjaNode.toString`: write to a fresh in-memory accumulator and join
its chunks (string concatenation of the write calls). -/
def NinjaNode.render (n : NinjaNode) : String :=
  String.join n.chunks

/-- `NinjaBuildFile` from src/index.ts: optional global options plus the
append-only node list. -/
structure NinjaBuildFile where
  options : Option BuildFileOptions := none
  nodes : List NinjaNode := []
deriving DecidableEq

/-- `NinjaBuildFile.preamble`: a `ninja_required_version` binding when
`options?.requiredVersion != null`, then a `builddir` binding when
`options?.builddir != null`. -/
def NinjaBuildFile.preamble (f : NinjaBuildFile) : List NinjaNode :=
  (match f.options.bind BuildFileOptions.requiredVersion with
   | some v => [NinjaNode.binding "ninja_required_version" v ""]
   | none => [])
  ++ (match f.options.bind BuildFileOptions.builddir with
      | some b => [NinjaNode.binding "builddir" b ""]
      | none => [])

/-- `NinjaBuildFile.postamble`: a raw `default <fileList(default)>` line
when `options?.default != null`. -/
def NinjaBuildFile.postamble (f : NinjaBuildFile) : List NinjaNode :=
  match f.options.bind BuildFileOptions.default with
  | some d => [NinjaNode.raw ("default " ++ fileList (some d) none)]
  | none => []

/-- `NinjaBuildFile.writeTo` streams preamble, then appended nodes, then
postamble; its write calls are the concatenation of each node's chunks. -/
def NinjaBuildFile.chunks (f : NinjaBuildFile) : List String :=
  ((f.preamble ++ f.nodes ++ f.postamble).map NinjaNode.chunks).flatten

/-- `NinjaBuildFile.bind`: push a top-level `Binding` node and return the
document. -/
def NinjaBuildFile.bind (f : NinjaBuildFile) (name value : String) : NinjaBuildFile :=
  { f with nodes := f.nodes ++ [NinjaNode.binding name value ""] }

/-- `NinjaBuildFile.rule`: push a `Rule` node and return the document. -/
def NinjaBuildFile.rule (f : NinjaBuildFile) (name command : String)
    (options : Option (List (String × RuleValue))) : NinjaBuildFile :=
  { f with nodes := f.nodes ++ [NinjaNode.rule name command options] }

/-- `NinjaBuildFile.build`: push an `Edge` node and return the document
(`inputs` is a required parameter of `build`, hence not optional here). -/
def NinjaBuildFile.build (f : NinjaBuildFile) (outputs : FileArg) (rule : String)
    (inputs : FileArg) (options : Option EdgeOptions)
    (bindings : Option (List (String × String))) : NinjaBuildFile :=
  { f with nodes := f.nodes ++ [NinjaNode.edge outputs rule (some inputs) options bindings] }

/-- `NinjaBuildFile.raw`: push a `Raw` node and return the document. -/
def NinjaBuildFile.raw (f : NinjaBuildFile) (s : String) : NinjaBuildFile :=
  { f with nodes := f.nodes ++ [NinjaNode.raw s] }

/-- A deterministic model of a `Writable` sink (src/util.ts): it records
every chunk it is asked to write, and answers each `write` call from a
predetermined script of booleans, consuming one entry per call; an
exhausted (or empty) script answers `true`, which makes the empty script
model `StringWritable` exactly. -/
structure Sink where
  written : List String := []
  accepts : List Bool := []
deriving DecidableEq

/-- `write(s)`: record the chunk, report the scripted acceptance. -/
def Sink.write (w : Sink) (s : String) : Bool × Sink :=
  (w.accepts.headD true, { written := w.written ++ [s], accepts := w.accepts.tail })

/-- Running a `writeTo`-style chunk sequence against a sink: the source
calls `w.write(chunk)` once per chunk, as a statement, discarding the
returned boolean. -/
def writeChunks (cs : List String) (w : Sink) : Sink :=
  cs.foldl (fun st c => (st.write c).2) w

/-- `NinjaBuildFile.toString` (inherited from `NinjaNode`): write the
document to a fresh `StringWritable` and join the accumulated chunks. -/
def NinjaBuildFile.toString (f : NinjaBuildFile) : String :=
  String.join (writeChunks f.chunks { written := [], accepts := [] }).written

/-! ### Spec-side renderings

The following definitions restate, in the spec's own words, the output
layout that claims C2, C4 and C5 ascribe to the document, edge and rule
renderers; the claim theorems below compare them with the renderers
embedded from the source.  `bindingChunk indent name value` is the
indented binding line `<indent><name> = <value>` of the spec's grammar. -/

/-- Claim C2's layout, from the spec: a `ninja_required_version` binding
line when a minimum version was configured, then a `builddir` binding
line when configured, then every appended node's rendering in append
order, then a `default <targets>` line when configured; nothing else. -/
def specFileRender (f : NinjaBuildFile) : String :=
  (match f.options.bind BuildFileOptions.requiredVersion with
   | some v => bindingChunk "" "ninja_required_version" v
   | none => "")
  ++ (match f.options.bind BuildFileOptions.builddir with
      | some b => bindingChunk "" "builddir" b
      | none => "")
  ++ String.join (f.nodes.map NinjaNode.render)
  ++ (match f.options.bind BuildFileOptions.default with
      | some d => "default " ++ fileList (some d) none ++ "\n"
      | none => "")

/-- Claim C5's layout, from the spec: a string-valued option yields an
indented binding line, a boolean-valued one yields an indented
`<key> = 1` line only when true and nothing otherwise. -/
def specRuleOptionLine : String × RuleValue → String
  | (k, RuleValue.str v) => bindingChunk INDENT k v
  | (k, RuleValue.bool b) => if b then bindingChunk INDENT k "1" else ""

/-- Claim C5's layout, from the spec: `rule <name>` on its own line, the
indented `command = <command>` line unconditionally first, then each
supplied option's line in the order supplied. -/
def specRuleRender (name command : String)
    (options : Option (List (String × RuleValue))) : String :=
  "rule " ++ name ++ "\n"
    ++ bindingChunk INDENT "command" command
    ++ String.join ((options.getD []).map specRuleOptionLine)

/-- Claim C4's layout (amended), from the spec: one line
`build <outputs-field>: <rule-name> <inputs-field>` with the qualified
groups in the fixed order implicit-outputs (`|`), then after the colon
plain inputs, implicit inputs (`|`), order-only (`||`), validations
(`|@`); immediately after, an indented `dyndep` binding line when a
non-empty dyndep was supplied, then an indented `pool` binding line when
a non-empty pool was supplied, then each extra-bindings entry as an
indented binding line in insertion order. -/
def specEdgeRender (outputs : FileArg) (ruleName : String)
    (inputs : Option FileArg) (options : Option EdgeOptions)
    (bindings : Option (List (String × String))) : String :=
  "build " ++ fileList (some outputs) none
    ++ fileList ((options.bind EdgeOptions.implicitOuts).map FileArg.list) (some "|")
    ++ ": " ++ ruleName ++ " "
    ++ fileList inputs none
    ++ fileList ((options.bind EdgeOptions.implicitDeps).map FileArg.list) (some "|")
    ++ fileList ((options.bind EdgeOptions.orderDeps).map FileArg.list) (some "||")
    ++ fileList ((options.bind EdgeOptions.validations).map FileArg.list) (some "|@")
    ++ "\n"
    ++ (match options.bind EdgeOptions.dyndep with
        | some d => if d = "" then "" else bindingChunk INDENT "dyndep" d
        | none => "")
    ++ (match options.bind EdgeOptions.pool with
        | some p => if p = "" then "" else bindingChunk INDENT "pool" p
        | none => "")
    ++ String.join ((bindings.getD []).map fun kv => bindingChunk INDENT kv.1 kv.2)

/-! ### Helper lemmas -/

theorem join_cons (a : String) (l : List String) :
    String.join (a :: l) = a ++ String.join l := by
  apply String.ext
  simp [String.join_eq, String.data_append]

theorem join_append (l₁ l₂ : List String) :
    String.join (l₁ ++ l₂) = String.join l₁ ++ String.join l₂ := by
  apply String.ext
  simp [String.join_eq, String.data_append]

theorem join_singleton (a : String) : String.join [a] = a := by
  apply String.ext
  simp [String.join_eq]

theorem writeChunks_written (cs : List String) (w : Sink) :
    (writeChunks cs w).written = w.written ++ cs := by
  induction cs generalizing w with
  | nil => simp [writeChunks]
  | cons c cs ih =>
      show (writeChunks cs (w.write c).2).written = w.written ++ (c :: cs)
      rw [ih]
      simp [Sink.write]

theorem toString_eq_join (f : NinjaBuildFile) :
    f.toString = String.join f.chunks := by
  unfold NinjaBuildFile.toString
  rw [writeChunks_written]
  rfl

theorem escapeChars_id : ∀ (l : List Char), (∀ c ∈ l, special c = false) →
    (l.map fun c => if special c then ['$', c] else [c]).flatten = l
  | [], _ => rfl
  | c :: cs, h => by
      have hc := h c (List.mem_cons_self c cs)
      have ih := escapeChars_id cs (fun x hx => h x (List.mem_cons_of_mem c hx))
      simp [hc, ih]

theorem join_nil : String.join [] = "" := rfl

theorem join_nodes_renders (ns : List NinjaNode) :
    String.join ((ns.map NinjaNode.chunks).flatten) = String.join (ns.map NinjaNode.render) := by
  induction ns with
  | nil => rfl
  | cons n ns ih => simp [join_cons, join_append, NinjaNode.render, ih]

theorem join_ruleOptionChunks (l : List (String × RuleValue)) :
    String.join ((l.map ruleOptionChunks).flatten) = String.join (l.map specRuleOptionLine) := by
  induction l with
  | nil => rfl
  | cons kv l ih =>
      obtain ⟨k, v⟩ := kv
      cases v with
      | str s =>
          simp [ruleOptionChunks, specRuleOptionLine, join_cons, join_append, ih]
      | bool b =>
          cases b <;>
            simp [ruleOptionChunks, specRuleOptionLine, join_cons, join_append, ih]

theorem fileList_of_empty (f : Option FileArg) (sep : Option String)
    (h : emptyFiles f = true) : fileList f sep = "" := by
  simp [fileList, h]

/-! ### Claim theorems -/

/-- Claim C1, counterexample: the claim says that when a write reports
non-acceptance, serialization stops at that point and propagates a
write-failure.  On a document of two raw nodes "a" and "b", against a sink
whose very first write call answers `false`, the source nevertheless
performs both write calls (the returned boolean is discarded), so the
recorded writes are both chunks and no failure reaches the caller. -/
theorem C1_counterexample :
    (Sink.write { written := [], accepts := [false] } "a\n").1 = false ∧
    (writeChunks
        (NinjaBuildFile.chunks
          { options := none, nodes := [NinjaNode.raw "a", NinjaNode.raw "b"] })
        { written := [], accepts := [false] }).written = ["a\n", "b\n"] :=
  ⟨rfl, rfl⟩

/-- Claim C1, amended: the serializer ignores the boolean returned by the
sink's write operation; every chunk of the document is written in order,
whatever acceptance answers the sink gives, and no write-failure condition
is propagated to the caller. -/
theorem C1_write_result_ignored (f : NinjaBuildFile) (w : Sink) :
    (writeChunks f.chunks w).written = w.written ++ f.chunks :=
  writeChunks_written f.chunks w

/-- Claim C3: `escape` maps each character of the input, in order, to a
dollar sign followed by the character when it is a space, colon, dollar or
newline, and to the character itself otherwise; as a Lean function it is
pure and total by construction. -/
theorem C3_escape_prefixes_specials (s : String) :
    escape s = String.join (s.data.map fun c =>
      if special c then String.mk ['$', c] else String.mk [c]) := by
  apply String.ext
  simp [escape, String.join_eq, List.map_map, Function.comp_def, apply_ite String.data]

/-- Claim C9: on a string none of whose characters is a space, colon,
dollar or newline, `escape` is the identity. -/
theorem C9_escape_unchanged (s : String) (h : ∀ c ∈ s.data, special c = false) :
    escape s = s := by
  obtain ⟨l⟩ := s
  apply String.ext
  exact escapeChars_id l h

/-- Witness for C9 at the concrete input "pathtofile.o". -/
theorem C9_witness : escape "pathtofile.o" = "pathtofile.o" :=
  C9_escape_unchanged "pathtofile.o" (by decide)

/-- Claim C6, counterexample: the claim says a supplied separator token is
always rendered as a space, the token and a space before the joined
values; but the source tests `separator !== ''`, so the empty separator
token yields no prefix at all: `fileList(['a'], '')` is `"a"`, not
`" " + "" + " " + "a"`. -/
theorem C6_counterexample :
    fileList (some (FileArg.list ["a"])) (some "") = "a" ∧
    ("a" : String) ≠ " " ++ "" ++ " " ++ "a" :=
  ⟨rfl, by decide⟩

/-- Claim C6, amended, over the helper's whole domain (absent, single
string, or sequence): an input that is absent or has length zero — an
empty sequence, or a single string of zero length — yields the empty
string regardless of any separator token; any other input yields its
values (a single string counting as the one-element sequence of itself)
joined by single spaces, prefixed by a space, the token and a space when
a non-empty separator token is supplied; and the empty separator token
behaves, on every input, exactly as if no separator was supplied. -/
theorem C6_fileList_spec :
    (∀ (f : Option FileArg) (sep : Option String), emptyFiles f = true →
        fileList f sep = "")
    ∧ (∀ f : Option FileArg, emptyFiles f = false →
        fileList f none = String.intercalate " " (argValues f))
    ∧ (∀ (f : Option FileArg) (sep : String), emptyFiles f = false → sep ≠ "" →
        fileList f (some sep)
          = " " ++ sep ++ " " ++ String.intercalate " " (argValues f))
    ∧ (∀ f : Option FileArg, fileList f (some "") = fileList f none) := by
  refine ⟨fun f sep h => fileList_of_empty f sep h,
    fun f h => ?_, fun f sep h hsep => ?_, fun f => ?_⟩
  · cases f with
    | none => simp [emptyFiles] at h
    | some a => cases a <;> simp [fileList, argValues, h]
  · cases f with
    | none => simp [emptyFiles] at h
    | some a => cases a <;> simp [fileList, argValues, h, hsep]
  · cases hf : emptyFiles f <;> simp [fileList, hf]

/-- Witness for C6 at a concrete single-string input. -/
theorem C6_witness :
    fileList (some (FileArg.str "foo")) (some "|") = " | foo" := by
  have h := C6_fileList_spec.2.2.1 (some (FileArg.str "foo")) "|"
    (by decide) (by decide)
  exact h.trans (by decide)

/-- Claim C2: for every document, the serialized output is exactly the
version binding line if configured, then the builddir binding line if
configured, then the appended nodes' renderings in append order, then the
`default` line if configured, and nothing else. -/
theorem C2_document_layout (f : NinjaBuildFile) :
    f.toString = specFileRender f := by
  rw [toString_eq_join]
  cases hrv : f.options.bind BuildFileOptions.requiredVersion <;>
    cases hbd : f.options.bind BuildFileOptions.builddir <;>
      cases hdf : f.options.bind BuildFileOptions.default <;>
        simp [NinjaBuildFile.chunks, specFileRender, NinjaBuildFile.preamble,
          NinjaBuildFile.postamble, hrv, hbd, hdf, List.map_append,
          List.flatten_append, join_append, join_cons, join_singleton, join_nil,
          join_nodes_renders, NinjaNode.chunks, String.append_assoc,
          String.append_empty, String.empty_append]

/-- Claim C5: a rule renders as `rule <name>`, then the indented
`command = <command>` line unconditionally first, then each supplied
option in the supplied order, string values as indented binding lines and
boolean values as indented `<key> = 1` lines only when true; in
particular `generator: false` produces no line and `generator: true`
produces `  generator = 1`. -/
theorem C5_rule_layout (name command : String)
    (options : Option (List (String × RuleValue))) :
    (NinjaNode.rule name command options).render
        = specRuleRender name command options
      ∧ (NinjaNode.rule "cc" "x" (some [("generator", RuleValue.bool false)])).render
        = "rule cc\n  command = x\n"
      ∧ (NinjaNode.rule "cc" "x" (some [("generator", RuleValue.bool true)])).render
        = "rule cc\n  command = x\n  generator = 1\n" := by
  refine ⟨?_, by decide, by decide⟩
  simp [NinjaNode.render, NinjaNode.chunks, specRuleRender, join_cons,
    join_append, join_ruleOptionChunks, String.append_assoc]

/-- Claim C4 (amended), counterexample to the original claim: the source
guards the dyndep line with a JS truthiness test, so an edge whose
supplied dyndep path is the empty string renders with no dyndep binding
line at all — only the single build line. -/
theorem C4_counterexample :
    (NinjaNode.edge (FileArg.str "foo") "cc" (some (FileArg.str "bar"))
        (some { dyndep := some "" }) none).chunks
      = ["build foo: cc bar\n"] := by
  decide

/-- Claim C4, amended: an edge renders as the single
`build <outputs-field>: <rule-name> <inputs-field>` line with the
qualified groups in the fixed order, then a `dyndep` indented binding
line if supplied non-empty, then a `pool` indented binding line if
supplied non-empty, then the extra bindings in insertion order; and the
no-options example renders as exactly `build foo: cc bar`. -/
theorem C4_edge_layout (outputs : FileArg) (ruleName : String)
    (inputs : Option FileArg) (options : Option EdgeOptions)
    (bindings : Option (List (String × String))) :
    (NinjaNode.edge outputs ruleName inputs options bindings).render
        = specEdgeRender outputs ruleName inputs options bindings
      ∧ (NinjaNode.edge (FileArg.str "foo") "cc" (some (FileArg.str "bar"))
          none none).render = "build foo: cc bar\n" := by
  refine ⟨?_, by decide⟩
  cases hd : options.bind EdgeOptions.dyndep <;>
    cases hp : options.bind EdgeOptions.pool <;>
      simp [NinjaNode.render, NinjaNode.chunks, specEdgeRender, hd, hp,
        join_append, join_cons, join_singleton, join_nil, String.append_assoc,
        String.append_empty, String.empty_append, apply_ite] <;>
        split_ifs <;>
          simp [join_cons, join_append, join_singleton, join_nil,
            String.append_assoc, String.append_empty, String.empty_append]

/-- Claim C7: rendering is a pure function of the document — serializing
the same unmodified document twice yields identical output, and the
output through the stateful sink model is exactly the concatenation of
the document's chunks, independent of any sink state. -/
theorem C7_deterministic (f : NinjaBuildFile) :
    f.toString = f.toString ∧ f.toString = String.join f.chunks :=
  ⟨rfl, toString_eq_join f⟩

/-- Claim C8: each append operation (bind, rule, build, raw) is total,
returns the document with exactly one node appended at the end of the
node list, and leaves the previously appended nodes and the document's
global options unchanged. -/
theorem C8_append_frame (f : NinjaBuildFile) (n v rn cmd rs : String)
    (ro : Option (List (String × RuleValue))) (outs ins : FileArg) (er : String)
    (eo : Option EdgeOptions) (eb : Option (List (String × String))) :
    ((f.bind n v).nodes = f.nodes ++ [NinjaNode.binding n v ""]
      ∧ (f.bind n v).options = f.options)
    ∧ ((f.rule rn cmd ro).nodes = f.nodes ++ [NinjaNode.rule rn cmd ro]
      ∧ (f.rule rn cmd ro).options = f.options)
    ∧ ((f.build outs er ins eo eb).nodes
          = f.nodes ++ [NinjaNode.edge outs er (some ins) eo eb]
      ∧ (f.build outs er ins eo eb).options = f.options)
    ∧ ((f.raw rs).nodes = f.nodes ++ [NinjaNode.raw rs]
      ∧ (f.raw rs).options = f.options) :=
  ⟨⟨rfl, rfl⟩, ⟨rfl, rfl⟩, ⟨rfl, rfl⟩, ⟨rfl, rfl⟩⟩

/-- Claim C10: when an edge's inputs and its implicit-inputs, order-only
and validations groups are all absent or empty, the build line still
carries the unconditional space after the rule name, ending in a space
immediately before the newline. -/
theorem C10_trailing_space (outputs : FileArg) (ruleName : String)
    (inputs : Option FileArg) (options : Option EdgeOptions)
    (bindings : Option (List (String × String)))
    (h1 : emptyFiles inputs = true)
    (h2 : emptyFiles ((options.bind EdgeOptions.implicitDeps).map FileArg.list) = true)
    (h3 : emptyFiles ((options.bind EdgeOptions.orderDeps).map FileArg.list) = true)
    (h4 : emptyFiles ((options.bind EdgeOptions.validations).map FileArg.list) = true) :
    (NinjaNode.edge outputs ruleName inputs options bindings).chunks.head?
      = some ("build "
          ++ (fileList (some outputs) none
              ++ fileList ((options.bind EdgeOptions.implicitOuts).map FileArg.list)
                  (some "|"))
          ++ ": " ++ ruleName ++ " " ++ "\n") := by
  simp only [NinjaNode.chunks]
  rw [fileList_of_empty _ _ h1, fileList_of_empty _ _ h2,
    fileList_of_empty _ _ h3, fileList_of_empty _ _ h4]
  simp [String.append_assoc, String.append_empty, String.empty_append]

/-- Witness for C10: the edge with outputs `foo`, rule `cc` and no inputs
renders its build line as `build foo: cc ` followed by the newline. -/
theorem C10_witness :
    (NinjaNode.edge (FileArg.str "foo") "cc" none none none).chunks.head?
      = some "build foo: cc \n" := by
  have h := C10_trailing_space (FileArg.str "foo") "cc" none none none
    rfl rfl rfl rfl
  exact h.trans (by decide)

end NinjaBuilder
